import Mathlib

/-!
Verification of the zkLogin wallet core (two services: `MultiProviderZkLoginService`,
the proof-based scheme, and `HybridWalletService`, the direct deterministic-key
scheme) against its natural-language specification.

Shallow embedding conventions:
* JavaScript 32-bit integer coercion (`x | 0`, `x & x`, `<<`) is modelled by
  `toInt32`; JavaScript number arithmetic below 2^53 is exact and modelled on `Int`.
* Monetary values are exact integers: coin balances are in mist (10^-9 SUI,
  `BigInt` in the source).  The user-entered decimal amount and the displayed
  balance string pass through JavaScript doubles in the source; every value on
  those paths is a decimal with at most 9 fractional digits, so we model the
  parsed amount as an exact count of mist (`amountNanos`) and the
  `toFixed(6)`-rounded balance as an exact count of micro-SUI
  (`displayedMicroBalance`).  `(x).toFixed(n)` rounds to nearest with ties away
  from zero for the non-negative values that occur here, modelled by
  `roundDivNat`.
* `localStorage` / `sessionStorage` are association lists from string keys to a
  typed value domain (`StoreVal`); `JSON.parse ∘ JSON.stringify` is the identity
  on that domain.
* External cryptography (Ed25519 keypair construction, `toSuiAddress`) is kept
  abstract: theorems about addresses quantify over an arbitrary function of the
  32-byte private key.
-/

set_option maxRecDepth 4000

namespace ZkLoginWallet

/-! ### JavaScript numeric primitives -/

/-- JavaScript `ToInt32`: wrap an integer into the range `[-2^31, 2^31)`.
Used to model `hash & hash` and the 32-bit behaviour of `hash << 5`. -/
def toInt32 (x : Int) : Int :=
  (x + 2147483648) % 4294967296 - 2147483648

/-- One step of the rolling hash in `HybridWalletService.createDeterministicSeed`
(and `MultiProviderZkLoginService.hashString`):
`hash = (hash << 5) - hash + char; hash = hash & hash;`.
`hash << 5` coerces to a signed 32-bit integer and shifts with wrap-around
(`toInt32 (h * 32)`); the subtraction and addition are exact double arithmetic;
`hash & hash` coerces the result back to a signed 32-bit integer. -/
def hashStep (h : Int) (c : Nat) : Int :=
  toInt32 (toInt32 (h * 32) - h + c)

/-- The full rolling hash over the code units of a string (`charCodeAt`),
starting from `0`.  All identity strings here are ASCII, for which Lean
characters coincide with UTF-16 code units. -/
def rollingHash (s : String) : Int :=
  s.data.foldl (fun h c => hashStep h c.toNat) 0

/-- Lowercase hexadecimal digit, as produced by JavaScript `toString(16)`:
code point `48 + n` for `n < 10` (digits) and `87 + n` for `10 ≤ n < 16`
(lowercase letters). -/
def hexDigit (n : Nat) : Char :=
  if n < 10 then Char.ofNat (48 + n) else Char.ofNat (87 + n)

/-- Fuel-indexed hexadecimal rendering (most significant digit first).  The
fuel argument makes the recursion structural so that proofs can evaluate it;
`natToHex` supplies fuel `n + 1`, which always suffices since a number has at
most `n + 1` digits. -/
def natToHexAux : Nat → Nat → List Char
  | 0, _ => []
  | fuel + 1, n => if n < 16 then [hexDigit n] else natToHexAux fuel (n / 16) ++ [hexDigit (n % 16)]

/-- JavaScript `n.toString(16)` for a natural number, as a list of characters. -/
def natToHex (n : Nat) : List Char :=
  natToHexAux (n + 1) n

/-- JavaScript `padStart(16, "0")` on a character list. -/
def padStart16 (l : List Char) : List Char :=
  List.replicate (16 - l.length) '0' ++ l

/-! ### Direct-scheme key derivation (`HybridWalletService`) -/

/-- The user record produced by `HybridWalletService.normalizeUserData`: the
fields consumed by key derivation.  `sub` is `""` when the provider supplied no
`sub` claim (JavaScript `undefined` / empty are both falsy, which is what the
`userData.sub || userData.id` fallback tests). -/
structure NormalizedHybridUser where
  sub : String
  id : String
  email : String
deriving DecidableEq, Repr

/-- JavaScript `userData.sub || userData.id`: the subject identifier actually
interpolated into the identity string. -/
def effectiveSub (u : NormalizedHybridUser) : String :=
  if u.sub = "" then u.id else u.sub

/-- The identity string `` `${provider}-${userData.sub || userData.id}-${userData.email}` ``
built by `createDeterministicSeed`. -/
def identityString (u : NormalizedHybridUser) (provider : String) : String :=
  provider ++ "-" ++ effectiveSub u ++ "-" ++ u.email

/-- `HybridWalletService.createDeterministicSeed`: rolling-hash the identity
string, take `Math.abs`, render as hex, `padStart(16, "0")`, `repeat(4)`, and
`substring(0, 64)`.  A pure function of the identity; no stored secret is read. -/
def createDeterministicSeed (u : NormalizedHybridUser) (provider : String) : String :=
  let identity := identityString u provider
  let hash := rollingHash identity
  let hex := padStart16 (natToHex hash.natAbs)
  String.mk (List.take 64 (hex ++ hex ++ hex ++ hex))

/-- Value of one hexadecimal character, as `parseInt(byte, 16)` computes it
(the seed only ever contains lowercase `0-9a-f`). -/
def hexCharVal (c : Char) : Nat :=
  if c = '1' then 1 else if c = '2' then 2 else if c = '3' then 3
  else if c = '4' then 4 else if c = '5' then 5 else if c = '6' then 6
  else if c = '7' then 7 else if c = '8' then 8 else if c = '9' then 9
  else if c = 'a' then 10 else if c = 'b' then 11 else if c = 'c' then 12
  else if c = 'd' then 13 else if c = 'e' then 14 else if c = 'f' then 15
  else 0

/-- JavaScript `seed.match(/.{1,2}/g)`: split into chunks of two characters
(a final odd character forms a singleton chunk). -/
def chunk2 : List Char → List (List Char)
  | [] => []
  | [a] => [[a]]
  | a :: b :: rest => [a, b] :: chunk2 rest

/-- `parseInt(pair, 16)` on a one- or two-character chunk. -/
def byteOfPair (l : List Char) : Nat :=
  l.foldl (fun acc c => acc * 16 + hexCharVal c) 0

/-- `HybridWalletService.createKeypairFromSeed`, up to the external
`Ed25519Keypair.fromSecretKey` call: the 32-byte private-key array
`privateKey[i] = seedBytes[i % seedBytes.length]` fed to it.  The keypair and
wallet address are functions of these 32 bytes, handled abstractly in the
theorems. -/
def createKeypairFromSeed (seed : String) : List Nat :=
  let seedBytes := (chunk2 seed.data).map byteOfPair
  (List.range 32).map (fun i => seedBytes.getD (i % seedBytes.length) 0)

/-! ### C1: determinism of direct-scheme derivation -/

/-- C1.  For every fixed identity `(provider, subject, email)`, direct-scheme
key derivation is deterministic: any two user records that agree on the
provider, the effective subject (`sub || id`) and the email produce the same
32-byte private key from `createDeterministicSeed` followed by
`createKeypairFromSeed`, and hence the same wallet address under any address
function of the private key.  The derivation consults no stored secret: both
functions take only the identity as input. -/
theorem direct_scheme_key_derivation_deterministic
    (provider : String) (u1 u2 : NormalizedHybridUser) (addrOf : List Nat → String)
    (hsub : effectiveSub u1 = effectiveSub u2) (hemail : u1.email = u2.email) :
    createKeypairFromSeed (createDeterministicSeed u1 provider)
        = createKeypairFromSeed (createDeterministicSeed u2 provider)
      ∧ (createKeypairFromSeed (createDeterministicSeed u1 provider)).length = 32
      ∧ addrOf (createKeypairFromSeed (createDeterministicSeed u1 provider))
        = addrOf (createKeypairFromSeed (createDeterministicSeed u2 provider)) := by
  have hid : identityString u1 provider = identityString u2 provider := by
    unfold identityString
    rw [hsub, hemail]
  have hseed : createDeterministicSeed u1 provider = createDeterministicSeed u2 provider := by
    unfold createDeterministicSeed
    rw [hid]
  have hkey : createKeypairFromSeed (createDeterministicSeed u1 provider)
      = createKeypairFromSeed (createDeterministicSeed u2 provider) := by rw [hseed]
  refine ⟨hkey, ?_, by rw [hkey]⟩
  unfold createKeypairFromSeed
  simp

/-- Witness for C1 at a concrete identity: a GitHub user with subject `"42"`
and email `"dev@example.com"` derives a 32-byte key, stable across repeated
invocations and address rendering. -/
theorem direct_scheme_key_derivation_deterministic_witness :
    createKeypairFromSeed (createDeterministicSeed ⟨"42", "42", "dev@example.com"⟩ "github")
        = createKeypairFromSeed (createDeterministicSeed ⟨"42", "42", "dev@example.com"⟩ "github")
      ∧ (createKeypairFromSeed (createDeterministicSeed ⟨"42", "42", "dev@example.com"⟩ "github")).length = 32
      ∧ (fun k => String.mk (k.map (fun b => hexDigit (b % 16))))
          (createKeypairFromSeed (createDeterministicSeed ⟨"42", "42", "dev@example.com"⟩ "github"))
        = (fun k => String.mk (k.map (fun b => hexDigit (b % 16))))
          (createKeypairFromSeed (createDeterministicSeed ⟨"42", "42", "dev@example.com"⟩ "github")) :=
  direct_scheme_key_derivation_deterministic "github" ⟨"42", "42", "dev@example.com"⟩
    ⟨"42", "42", "dev@example.com"⟩ (fun k => String.mk (k.map (fun b => hexDigit (b % 16)))) rfl rfl

/-! ### Ledger view: coins and balance -/

/-- A SUI coin object as returned by `suiClient.getCoins`: object id and
balance in mist (minimal units; `BigInt` in the source, non-negative). -/
structure Coin where
  coinObjectId : String
  balance : Nat
deriving DecidableEq, Repr

/-- The summation loop of `MultiProviderZkLoginService.getBalance`:
`totalBalance += BigInt(coin.balance)` over all coins — exact integer
(arbitrary-precision) addition. -/
def totalMistBalance (coins : List Coin) : Nat :=
  coins.foldl (fun acc c => acc + c.balance) 0

/-- Round-to-nearest division with ties away from zero on naturals: the value
of JavaScript `(x / d).toFixed(...)`-style rounding for the non-negative exact
decimals occurring here. -/
def roundDivNat (n d : Nat) : Nat :=
  (n + d / 2) / d

/-- The displayed balance of `getBalance` in micro-SUI:
`(Number(totalBalance) / 1_000_000_000).toFixed(6)` rounds the mist total to
six decimal places of SUI, i.e. to a whole number of micro-SUI.  The caller's
`parseFloat` of that string recovers exactly this value. -/
def displayedMicroBalance (coins : List Coin) : Nat :=
  roundDivNat (totalMistBalance coins) 1000

/-- Decimal rendering of a natural number, zero-padded on the left to `d`
digits (the fractional part of a `toFixed(d)` string). -/
def padZeros (d n : Nat) : List Char :=
  List.replicate (d - (Nat.repr n).length) '0' ++ (Nat.repr n).data

/-- A non-negative `toFixed(d)` decimal string whose value is
`scaled / 10^d`: integer part, a dot, then `d` fractional digits. -/
def fixedString (d scaled : Nat) : String :=
  String.mk ((Nat.repr (scaled / 10 ^ d)).data ++ '.' :: padZeros d (scaled % 10 ^ d))

/-- The string returned by the success path of
`MultiProviderZkLoginService.getBalance`: the mist total converted to SUI and
formatted with `toFixed(6)`. -/
def getBalanceCompute (coins : List Coin) : String :=
  fixedString 6 (displayedMicroBalance coins)

/-- `MultiProviderZkLoginService.getBalance`: returns `"0"` when no wallet
address is set; otherwise queries the coins of the address and sums them,
returning `"0"` if the query throws (the `catch` branch). -/
def getBalanceMP (walletAddress : Option String) (query : Except Unit (List Coin)) : String :=
  match walletAddress with
  | none => "0"
  | some _ =>
    match query with
    | Except.ok coins => getBalanceCompute coins
    | Except.error _ => "0"

/-! ### Proof-based service state and send pipeline -/

/-- Supported OAuth providers. -/
inductive Provider where
  | github
  | google
deriving DecidableEq, Repr

/-- Provider name as interpolated into storage keys and identity strings. -/
def providerName : Provider → String
  | Provider.github => "github"
  | Provider.google => "google"

/-- The `User` session record of both services. -/
structure User where
  email : String
  loginTime : String
  provider : Provider
  login : Option String
  name : Option String
  picture : Option String
deriving DecidableEq, Repr

/-- The `proofPoints` component of a zkLogin proof artifact. -/
structure ProofPoints where
  a : List String
  b : List (List String)
  c : List String
deriving DecidableEq, Repr

/-- The `issBase64Details` component of a zkLogin proof artifact. -/
structure IssBase64Details where
  value : String
  indexMod4 : Nat
deriving DecidableEq, Repr

/-- The `ZkProof` artifact held by `MultiProviderZkLoginService`. -/
structure ZkProof where
  proofPoints : ProofPoints
  issBase64Details : IssBase64Details
  headerBase64 : String
  addressSeed : String
deriving DecidableEq, Repr

/-- The mutable fields of a `MultiProviderZkLoginService` instance.  The
ephemeral keypair is modelled by its secret-key bytes. -/
structure ZkState where
  user : Option User
  walletAddress : Option String
  ephemeralKeyPair : Option (List Nat)
  zkProof : Option ZkProof
  userSalt : Option String
  maxEpoch : Option Int
  sessionExpiry : Option Int
deriving DecidableEq, Repr

/-- A fresh service instance: the constructor initialises every field to
`null`. -/
def emptyZkState : ZkState :=
  { user := none, walletAddress := none, ephemeralKeyPair := none, zkProof := none,
    userSalt := none, maxEpoch := none, sessionExpiry := none }

/-- The composite zkLogin signature assembled by `createZkLoginSignature`:
the proof artifact, the `maxEpoch` recorded at login (passed through the
non-null assertion `this.maxEpoch!`), and the ephemeral key that produced the
inner signature over the transaction bytes. -/
structure ZkSignature where
  proof : ZkProof
  maxEpoch : Option Int
  signedWith : List Nat
deriving DecidableEq, Repr

/-- `MultiProviderZkLoginService.createZkLoginSignature`: fails when the
ephemeral keypair or proof is missing, otherwise assembles the composite
signature.  No epoch comparison happens here: `maxEpoch` is only embedded as
data. -/
def createZkLoginSignature (st : ZkState) : Option ZkSignature :=
  match st.ephemeralKeyPair, st.zkProof with
  | some ekp, some prf => some { proof := prf, maxEpoch := st.maxEpoch, signedWith := ekp }
  | _, _ => none

/-- The distinct `throw` sites of `sendTransaction`, in source order.  Each
constructor corresponds to one thrown message; `insufficientBalance` carries
the displayed balance (micro-SUI) and requested amount (mist) interpolated
into `"Insufficient balance. You have ... SUI but trying to send ... SUI."`. -/
inductive SendError where
  | notAuthenticated
  | noSui
  | insufficientBalance (displayedMicro : Nat) (amountNanos : Nat)
  | noCoins
  | coinMergingNotImplemented
  | signingFailed
deriving DecidableEq, Repr

/-- The transaction built from the selected coin: either
`splitCoins(coin, [amountInMist])` followed by `transferObjects([splitCoin],
recipient)` — an exact-amount sub-coin is transferred and the remainder stays
in the original coin with the sender — or `transferObjects([coin], recipient)`
moving the whole coin unmodified. -/
inductive TransferPlan where
  | split (coinObjectId : String) (transferAmount remainder : Nat) (recipient : String)
  | whole (coinObjectId : String) (recipient : String)
deriving DecidableEq, Repr

/-- Outcome of the send pipeline up to the ledger boundary: either a thrown
error (caught and returned as `success: false`), or the invocation of
`executeTransactionBlock` with the built transaction and composite signature. -/
inductive SendResult where
  | failure (error : SendError)
  | execute (plan : TransferPlan) (signature : ZkSignature)
deriving DecidableEq, Repr

/-- `MultiProviderZkLoginService.sendTransaction` up to the ledger-execution
boundary.  `amountNanos` is the user-entered decimal amount in mist
(`parseFloat(amount)` followed by `BigInt(Math.floor(amountNum * 1e9))` is
exact at this granularity), `coins` is the snapshot returned by the two
`getCoins` reads on a quiescent ledger, and `currentEpoch` is the ledger's
epoch at submission time — available to the service, but never consulted on
this path.  Checks in source order: authentication, zero displayed balance,
amount above displayed balance, empty coin list, first-fit coin selection,
split-versus-whole, signature assembly, execution. -/
def sendTransaction (st : ZkState) (recipient : String) (amountNanos : Nat)
    (coins : List Coin) (currentEpoch : Int) : SendResult :=
  if st.zkProof.isNone ∨ st.ephemeralKeyPair.isNone ∨ st.walletAddress.isNone then
    SendResult.failure SendError.notAuthenticated
  else
    let balanceMicro := displayedMicroBalance coins
    if balanceMicro = 0 then
      SendResult.failure SendError.noSui
    else if balanceMicro * 1000 < amountNanos then
      SendResult.failure (SendError.insufficientBalance balanceMicro amountNanos)
    else if coins.isEmpty then
      SendResult.failure SendError.noCoins
    else
      match coins.find? (fun c => amountNanos ≤ c.balance) with
      | none => SendResult.failure SendError.coinMergingNotImplemented
      | some c =>
        let plan :=
          if amountNanos < c.balance then
            TransferPlan.split c.coinObjectId amountNanos (c.balance - amountNanos) recipient
          else
            TransferPlan.whole c.coinObjectId recipient
        match createZkLoginSignature st with
        | none => SendResult.failure SendError.signingFailed
        | some sig => SendResult.execute plan sig

/-! ### Helper lemmas -/

/-- `List.find?` on a list decomposed around the first satisfying element. -/
theorem find?_first_of_decomp {α : Type} (p : α → Bool) (pre post : List α) (x : α)
    (hpre : ∀ y ∈ pre, p y = false) (hx : p x = true) :
    List.find? p (pre ++ x :: post) = some x := by
  induction pre with
  | nil => simp [List.find?_cons, hx]
  | cons a as ih =>
    have ha : p a = false := hpre a (by simp)
    simp only [List.cons_append, List.find?_cons, ha]
    exact ih (fun y hy => hpre y (by simp [hy]))

/-- A list with a distinguished element is not empty. -/
theorem isEmpty_decomp_false {α : Type} (pre post : List α) (x : α) :
    (pre ++ x :: post).isEmpty = false := by
  cases pre <;> rfl

/-- The rounded micro-SUI balance of an empty coin list is zero. -/
theorem displayedMicroBalance_nil : displayedMicroBalance [] = 0 := rfl

/-! ### Demo values used by witnesses and counterexamples -/

/-- A concrete mock proof artifact of the shape produced by
`generateMockZkProof` for GitHub. -/
def demoProof : ZkProof :=
  { proofPoints :=
      { a := ["mock_proof_a_github"], b := [["mock_proof_b_github"]], c := ["mock_proof_c_github"] },
    issBase64Details := { value := "aHR0cHM6Ly9naXRodWIuY29t", indexMod4 := 0 },
    headerBase64 := "eyJhbGciOiJSUzI1NiIsInR5cCI6IkpXVCJ9",
    addressSeed := "12345" }

/-- A concrete authenticated proof-based service state. -/
def demoAuthState : ZkState :=
  { user := none, walletAddress := some "0xabc", ephemeralKeyPair := some [1, 2, 3],
    zkProof := some demoProof, userSalt := some "99", maxEpoch := some 15,
    sessionExpiry := some 1000 }

/-- The demo state with a proof window that ended long ago (`maxEpoch = 5`). -/
def expiredWindowState : ZkState :=
  { demoAuthState with maxEpoch := some 5 }

/-! ### C2: first-fit coin selection, split versus whole, contiguous-funds failure -/

/-- C2.  For every positive requested amount and coin snapshot on which the
pipeline reaches coin selection: the selector scans the coins in ledger order
and picks the first coin whose balance is at least the requested amount — if
that coin's balance strictly exceeds the amount the transaction splits off an
exact-amount sub-coin for the recipient leaving the remainder with the sender,
and if it matches exactly the whole coin is transferred; and if no single coin
qualifies the send fails with the coin-merging (insufficient contiguous funds)
error even when the total balance would suffice. -/
theorem payment_coin_selector_first_fit
    (st : ZkState) (recipient : String) (amountNanos : Nat)
    (coins pre post : List Coin) (c : Coin) (e : Int)
    (prf : ZkProof) (ekp : List Nat) (w : String)
    (hZk : st.zkProof = some prf) (hEk : st.ephemeralKeyPair = some ekp)
    (hW : st.walletAddress = some w)
    (hPos : 0 < amountNanos)
    (hDisp : displayedMicroBalance coins ≠ 0)
    (hLe : amountNanos ≤ displayedMicroBalance coins * 1000) :
    ((coins = pre ++ c :: post) → (∀ cp ∈ pre, cp.balance < amountNanos) →
        amountNanos ≤ c.balance →
        sendTransaction st recipient amountNanos coins e =
          SendResult.execute
            (if amountNanos < c.balance then
              TransferPlan.split c.coinObjectId amountNanos (c.balance - amountNanos) recipient
            else TransferPlan.whole c.coinObjectId recipient)
            { proof := prf, maxEpoch := st.maxEpoch, signedWith := ekp })
      ∧ ((∀ cp ∈ coins, cp.balance < amountNanos) →
        amountNanos ≤ totalMistBalance coins →
        sendTransaction st recipient amountNanos coins e =
          SendResult.failure SendError.coinMergingNotImplemented) := by
  have hne : coins ≠ [] := by
    intro hnil
    exact hDisp (by rw [hnil]; rfl)
  constructor
  · intro hdecomp hpre hc
    unfold sendTransaction
    rw [hZk, hEk, hW]
    simp only [Option.isNone_some, or_self, if_false, Bool.false_eq_true, or_false]
    rw [if_neg hDisp, if_neg (not_lt.mpr hLe), hdecomp,
      isEmpty_decomp_false pre post c, if_neg (by simp),
      find?_first_of_decomp _ pre post c
        (fun y hy => by simpa using not_le.mpr (hpre y hy))
        (by simpa using hc)]
    rw [createZkLoginSignature, hEk, hZk]
  · intro hall hsum
    unfold sendTransaction
    rw [hZk, hEk, hW]
    simp only [Option.isNone_some, or_self, if_false, Bool.false_eq_true, or_false]
    rw [if_neg hDisp, if_neg (not_lt.mpr hLe),
      if_neg (by simp [List.isEmpty_eq_false.mpr hne]),
      List.find?_eq_none.mpr (fun x hx => by simpa using not_le.mpr (hall x hx))]

/-- Witness for C2 on the specification's own examples, in mist: coins
`[30, 50, 100]` SUI with a request for `40` SUI select the `50` coin and split
it into a transferred `40` and a retained `10`; coins `[10, 10, 10]` SUI with
a request for `25` SUI fail with the coin-merging error although the total
`30` SUI suffices. -/
theorem payment_coin_selector_first_fit_witness :
    sendTransaction demoAuthState "0xrecipient" 40000000000
        [⟨"coin-30", 30000000000⟩, ⟨"coin-50", 50000000000⟩, ⟨"coin-100", 100000000000⟩] 0 =
      SendResult.execute
        (TransferPlan.split "coin-50" 40000000000 10000000000 "0xrecipient")
        { proof := demoProof, maxEpoch := some 15, signedWith := [1, 2, 3] }
      ∧ sendTransaction demoAuthState "0xrecipient" 25000000000
        [⟨"c1", 10000000000⟩, ⟨"c2", 10000000000⟩, ⟨"c3", 10000000000⟩] 0 =
      SendResult.failure SendError.coinMergingNotImplemented := by
  have h1 := (payment_coin_selector_first_fit demoAuthState "0xrecipient" 40000000000
    [⟨"coin-30", 30000000000⟩, ⟨"coin-50", 50000000000⟩, ⟨"coin-100", 100000000000⟩]
    [⟨"coin-30", 30000000000⟩] [⟨"coin-100", 100000000000⟩] ⟨"coin-50", 50000000000⟩ 0
    demoProof [1, 2, 3] "0xabc" rfl rfl rfl (by decide) (by decide) (by decide)).1
    rfl (by decide) (by decide)
  have h2 := (payment_coin_selector_first_fit demoAuthState "0xrecipient" 25000000000
    [⟨"c1", 10000000000⟩, ⟨"c2", 10000000000⟩, ⟨"c3", 10000000000⟩]
    [] [] ⟨"c1", 10000000000⟩ 0
    demoProof [1, 2, 3] "0xabc" rfl rfl rfl (by decide) (by decide) (by decide)).2
    (by decide) (by decide)
  rw [if_pos (by decide : (40000000000 : Nat) < 50000000000)] at h1
  exact ⟨h1, h2⟩

/-! ### C3: balance precondition precedes coin selection -/

/-- C3, amended.  When the pipeline is authenticated, the displayed balance
(the mist total converted to SUI and rounded to six decimals by `toFixed(6)`)
is non-zero, and the requested amount exceeds that displayed balance, the
send fails with the insufficient-balance error; the equality holds for every
coin snapshot, so the failure precedes coin selection and takes precedence
over the contiguous-funds error.  When the displayed balance rounds to zero,
the distinct no-SUI error fires instead (see the counterexample). -/
theorem balance_precondition_before_selection
    (st : ZkState) (recipient : String) (amountNanos : Nat)
    (coins : List Coin) (e : Int)
    (prf : ZkProof) (ekp : List Nat) (w : String)
    (hZk : st.zkProof = some prf) (hEk : st.ephemeralKeyPair = some ekp)
    (hW : st.walletAddress = some w)
    (hDisp : displayedMicroBalance coins ≠ 0)
    (hGt : displayedMicroBalance coins * 1000 < amountNanos) :
    sendTransaction st recipient amountNanos coins e =
      SendResult.failure
        (SendError.insufficientBalance (displayedMicroBalance coins) amountNanos) := by
  unfold sendTransaction
  rw [hZk, hEk, hW]
  simp only [Option.isNone_some, or_self, if_false, Bool.false_eq_true, or_false]
  rw [if_neg hDisp, if_pos hGt]

/-- Witness for C3 at SUI scale: requesting `31` SUI against three `10` SUI
coins fails with the insufficient-balance error carrying the displayed
`30.000000` SUI balance. -/
theorem balance_precondition_before_selection_witness :
    sendTransaction demoAuthState "0xrecipient" 31000000000
        [⟨"c1", 10000000000⟩, ⟨"c2", 10000000000⟩, ⟨"c3", 10000000000⟩] 0 =
      SendResult.failure (SendError.insufficientBalance 30000000 31000000000) := by
  have h := balance_precondition_before_selection demoAuthState "0xrecipient" 31000000000
    [⟨"c1", 10000000000⟩, ⟨"c2", 10000000000⟩, ⟨"c3", 10000000000⟩] 0
    demoProof [1, 2, 3] "0xabc" rfl rfl rfl (by decide) (by decide)
  exact h

/-- Counterexample to C3 as stated, at the claim's own example in minimal
units: requesting `31` mist against coins `[10, 10, 10]` mist does exceed the
total balance, but the send fails with the no-SUI error — because `toFixed(6)`
rounds a `30` mist balance to the displayed string `"0.000000"` — and not with
the insufficient-balance error the claim requires. -/
theorem balance_precondition_counterexample :
    sendTransaction demoAuthState "0xrecipient" 31
        [⟨"c1", 10⟩, ⟨"c2", 10⟩, ⟨"c3", 10⟩] 0 = SendResult.failure SendError.noSui
      ∧ sendTransaction demoAuthState "0xrecipient" 31
        [⟨"c1", 10⟩, ⟨"c2", 10⟩, ⟨"c3", 10⟩] 0 ≠
        SendResult.failure
          (SendError.insufficientBalance
            (displayedMicroBalance [⟨"c1", 10⟩, ⟨"c2", 10⟩, ⟨"c3", 10⟩]) 31) := by
  constructor
  · decide
  · decide

/-! ### C4: no proof-window check on the send path -/

/-- C4, amended.  The send path performs no proof-window comparison: the
outcome of `sendTransaction` is identical under any two values of the
ledger's current epoch, so a session whose `maxEpoch` has passed is not
stopped before the ledger execution call; `maxEpoch` is only embedded as data
into the composite signature. -/
theorem send_outcome_independent_of_epoch
    (st : ZkState) (recipient : String) (amountNanos : Nat)
    (coins : List Coin) (e1 e2 : Int) :
    sendTransaction st recipient amountNanos coins e1 =
      sendTransaction st recipient amountNanos coins e2 := rfl

/-- Counterexample to C4 as stated: with `maxEpoch = 5` and a current epoch of
`100 > 5`, the send still reaches the ledger-execution call with a composite
signature embedding the stale `maxEpoch`; no `ExpiredProofWindowError` (or any
other failure) occurs before execution. -/
theorem proof_window_never_checked_counterexample :
    sendTransaction expiredWindowState "0xrecipient" 1000000000
        [⟨"c1", 2000000000⟩] 100 =
      SendResult.execute (TransferPlan.split "c1" 1000000000 1000000000 "0xrecipient")
        { proof := demoProof, maxEpoch := some 5, signedWith := [1, 2, 3] } := by
  decide

/-! ### C5: balance computation -/

/-- C5, amended.  `getBalance` sums the coin balances with exact
arbitrary-precision integer addition on minimal units (the `BigInt` loop), but
then converts the total to a SUI-denominated decimal through floating-point
division by `10^9` and `toFixed(6)`: the returned string is the six-decimal
SUI rendering of the rounded micro-SUI value, which differs from the exact
quotient by at most half a micro-SUI (`500` mist) and is not the minimal-unit
sum itself. -/
theorem getBalance_exact_sum_then_rounded_sui (coins : List Coin) :
    totalMistBalance coins = (coins.map Coin.balance).sum
      ∧ getBalanceCompute coins = fixedString 6 (displayedMicroBalance coins)
      ∧ ((displayedMicroBalance coins : Int) * 1000 - (totalMistBalance coins : Int)).natAbs ≤ 500 := by
  refine ⟨?_, rfl, ?_⟩
  · rw [List.sum_eq_foldl, List.foldl_map]
    rfl
  · have hdm := Nat.div_add_mod (totalMistBalance coins + 500) 1000
    unfold displayedMicroBalance roundDivNat
    omega

/-- Counterexample to C5 as stated: for a single coin of `30` mist the exact
minimal-unit sum is `30`, but `getBalance` returns the SUI string
`"0.000000"`, not the sum — the value has passed through the floating-point
SUI conversion and six-decimal rounding. -/
theorem getBalance_not_minimal_unit_sum_counterexample :
    getBalanceMP (some "0xabc") (Except.ok [⟨"c", 30⟩]) = "0.000000"
      ∧ getBalanceMP (some "0xabc") (Except.ok [⟨"c", 30⟩]) ≠
        Nat.repr (totalMistBalance [⟨"c", 30⟩]) := by
  constructor
  · decide
  · decide

/-! ### Persistent stores, salt, sessions -/

/-- The session object serialised by
`MultiProviderZkLoginService.saveSecureSession` into
`localStorage["zklogin_session"]`.  Note: it carries no ephemeral keypair. -/
structure ZkSessionData where
  user : Option User
  walletAddress : Option String
  sessionExpiry : Int
  userSalt : Option String
  zkProof : Option ZkProof
  maxEpoch : Option Int
deriving DecidableEq, Repr

/-- The session object serialised by `HybridWalletService.saveSession` into
`localStorage["hybrid_wallet_session"]`. -/
structure HybridSessionData where
  privateKey : List Nat
  user : Option User
  walletAddress : Option String
  sessionExpiry : Int
deriving DecidableEq, Repr

/-- Values stored in web storage.  Real storage holds JSON strings; we view
`JSON.parse ∘ JSON.stringify` as the identity and store the typed records
directly (salt values are plain strings). -/
inductive StoreVal where
  | str (s : String)
  | zk (s : ZkSessionData)
  | hybrid (s : HybridSessionData)
deriving DecidableEq, Repr

/-- A web-storage instance (`localStorage` or `sessionStorage`) as an
association list. -/
def Store : Type := List (String × StoreVal)

instance : DecidableEq Store := fun a b => List.hasDecEq a b

/-- `storage.getItem(k)`. -/
def getItem (store : Store) (k : String) : Option StoreVal :=
  (List.find? (fun p => p.1 == k) store).map Prod.snd

/-- `storage.setItem(k, v)` (insert or overwrite). -/
def setItem (store : Store) (k : String) (v : StoreVal) : Store :=
  (k, v) :: List.filter (fun p => !(p.1 == k)) store

/-- `storage.removeItem(k)`. -/
def removeItem (store : Store) (k : String) : Store :=
  List.filter (fun p => !(p.1 == k)) store

/-- The per-subject salt key
`` `zklogin_salt_${provider}_${userData.sub}` `` of
`MultiProviderZkLoginService.getUserSalt`. -/
def saltKey (p : Provider) (sub : String) : String :=
  "zklogin_salt_" ++ providerName p ++ "_" ++ sub

/-- `MultiProviderZkLoginService.getUserSalt`: look up the salt stored for
`(provider, sub)`; if absent, persist the freshly drawn random value
(`Math.floor(Math.random() * 2 ** 64).toString()`, passed in as `fresh`) and
return it; if present, return the stored value and leave the store unchanged. -/
def getUserSalt (store : Store) (p : Provider) (sub : String) (fresh : String) :
    String × Store :=
  match getItem store (saltKey p sub) with
  | some (StoreVal.str s) => (s, store)
  | _ => (fresh, setItem store (saltKey p sub) (StoreVal.str fresh))

/-- `MultiProviderZkLoginService.logout`: null out every in-memory field,
remove only the `"zklogin_session"` key from `localStorage` (salt keys are
untouched), and clear `sessionStorage` (where the ephemeral key material from
`initiateLogin` lives).  Returns the new state, `localStorage`, and
`sessionStorage`. -/
def logoutMP (localStore sessionStore : Store) : ZkState × Store × Store :=
  (emptyZkState, removeItem localStore "zklogin_session", ([] : Store))

/-- `MultiProviderZkLoginService.restoreSession`: read
`localStorage["zklogin_session"]`; absent or unparsable data yields `false`
with nothing changed; an expired session (`Date.now() > sessionExpiry`)
triggers `logout()` and yields `false`; otherwise the stored fields are
reinstated — the ephemeral keypair field is not part of the stored record and
keeps its current value.  Returns `(restored, state, localStorage,
sessionStorage)`. -/
def restoreSessionMP (now : Int) (localStore sessionStore : Store) (st : ZkState) :
    Bool × ZkState × Store × Store :=
  match getItem localStore "zklogin_session" with
  | some (StoreVal.zk s) =>
    if s.sessionExpiry < now then
      (false, emptyZkState, removeItem localStore "zklogin_session", ([] : Store))
    else
      (true,
        { user := s.user, walletAddress := s.walletAddress,
          ephemeralKeyPair := st.ephemeralKeyPair, zkProof := s.zkProof,
          userSalt := s.userSalt, maxEpoch := s.maxEpoch,
          sessionExpiry := some s.sessionExpiry },
        localStore, sessionStore)
  | _ => (false, st, localStore, sessionStore)

/-- The mutable fields of a `HybridWalletService` instance. -/
structure HybridState where
  keypair : Option (List Nat)
  user : Option User
  walletAddress : Option String
  sessionExpiry : Option Int
deriving DecidableEq, Repr

/-- A fresh `HybridWalletService` instance. -/
def emptyHybridState : HybridState :=
  { keypair := none, user := none, walletAddress := none, sessionExpiry := none }

/-- `HybridWalletService.logout`: null the fields, remove
`"hybrid_wallet_session"` from `localStorage`, clear `sessionStorage`. -/
def logoutHybrid (localStore sessionStore : Store) : HybridState × Store × Store :=
  (emptyHybridState, removeItem localStore "hybrid_wallet_session", ([] : Store))

/-- `HybridWalletService.restoreSession`: like the proof-based variant but the
stored private key is reinstated (first 32 bytes) and the wallet address is
recomputed from the keypair via the external `toSuiAddress`, abstracted as
`addrOf`. -/
def restoreSessionHybrid (addrOf : List Nat → String) (now : Int)
    (localStore sessionStore : Store) (st : HybridState) :
    Bool × HybridState × Store × Store :=
  match getItem localStore "hybrid_wallet_session" with
  | some (StoreVal.hybrid s) =>
    if s.sessionExpiry < now then
      (false, emptyHybridState, removeItem localStore "hybrid_wallet_session", ([] : Store))
    else
      (true,
        { keypair := some (s.privateKey.take 32), user := s.user,
          walletAddress := some (addrOf (s.privateKey.take 32)),
          sessionExpiry := some s.sessionExpiry },
        localStore, sessionStore)
  | _ => (false, st, localStore, sessionStore)

/-! ### Store lemmas -/

/-- Reading the key just written returns the written value. -/
theorem getItem_setItem_self (store : Store) (k : String) (v : StoreVal) :
    getItem (setItem store k v) k = some v := by
  unfold getItem setItem
  simp [List.find?_cons]

/-- Filtering by a predicate that every candidate of a search satisfies does
not change the result of the search. -/
theorem find?_filter_superset {α : Type} (l : List α) (p q : α → Bool)
    (h : ∀ a, q a = true → p a = true) :
    List.find? q (List.filter p l) = List.find? q l := by
  induction l with
  | nil => rfl
  | cons a l ih =>
    cases hqa : q a with
    | true =>
      rw [List.filter_cons, if_pos (h a hqa)]
      simp [List.find?_cons, hqa]
    | false =>
      rw [List.filter_cons]
      by_cases hpa : p a = true
      · rw [if_pos hpa]
        simp only [List.find?_cons, hqa]
        exact ih
      · rw [if_neg hpa]
        rw [ih]
        simp [List.find?_cons, hqa]

/-- Removing one key leaves every other key unchanged. -/
theorem getItem_removeItem_ne (store : Store) (k k' : String) (hne : k ≠ k') :
    getItem (removeItem store k') k = getItem store k := by
  unfold getItem removeItem
  rw [find?_filter_superset]
  intro a ha
  have hak : a.1 = k := beq_iff_eq.mp ha
  have : (a.1 == k') = false := beq_eq_false_iff_ne.mpr (fun hh => hne (hak ▸ hh))
  rw [this]
  rfl

/-- Reading a removed key returns nothing. -/
theorem getItem_removeItem_self (store : Store) (k : String) :
    getItem (removeItem store k) k = none := by
  unfold getItem removeItem
  rw [List.find?_eq_none.mpr]
  · rfl
  · intro x hx
    have := (List.mem_filter.mp hx).2
    intro hxk
    rw [hxk] at this
    exact absurd this (by decide)

/-- Every per-subject salt key differs from the session key: the two strings
already disagree within their first thirteen characters. -/
theorem saltKey_ne_sessionKey (p : Provider) (sub : String) :
    saltKey p sub ≠ "zklogin_session" := by
  intro h
  have hdata : (saltKey p sub).data = "zklogin_session".data := congrArg String.data h
  have hstruct : (saltKey p sub).data
      = "zklogin_salt_".data ++ ((providerName p).data ++ ("_".data ++ sub.data)) := by
    unfold saltKey
    simp [String.data_append, List.append_assoc]
  have htake : List.take 13 ((saltKey p sub).data) = "zklogin_salt_".data := by
    rw [hstruct]
    rw [(by decide : (13 : Nat) = ("zklogin_salt_".data).length)]
    exact List.take_left _ _
  rw [hdata] at htake
  exact absurd htake (by decide)

/-- A concrete user record for witnesses. -/
def demoUser : User :=
  { email := "dev@example.com", loginTime := "2024-01-01T00:00:00Z",
    provider := Provider.github, login := some "dev", name := none, picture := none }

/-- A concrete persisted proof-based session (expiry at time `10`). -/
def demoSessionData : ZkSessionData :=
  { user := some demoUser, walletAddress := some "0xabc", sessionExpiry := 10,
    userSalt := some "99", zkProof := some demoProof, maxEpoch := some 15 }

/-- A concrete persisted hybrid session (expiry at time `10`). -/
def demoHybridSessionData : HybridSessionData :=
  { privateKey := List.replicate 32 7, user := some demoUser,
    walletAddress := some "0xdef", sessionExpiry := 10 }

/-- A concrete `localStorage` holding the proof-based session and one salt. -/
def demoLocalStore : Store :=
  [("zklogin_session", StoreVal.zk demoSessionData),
    (saltKey Provider.github "alice", StoreVal.str "7777")]

/-- A concrete `localStorage` holding the hybrid session. -/
def demoHybridStore : Store :=
  [("hybrid_wallet_session", StoreVal.hybrid demoHybridSessionData)]

/-! ### C7: salt generated once, reused, and surviving logout -/

/-- C7.  For every `(provider, subject)` pair: when no salt is stored, the
freshly drawn random value is returned and persisted under the per-subject
key; when a salt is stored, it is returned unconditionally and the store is
untouched; hence a second login always returns the value of the first,
whatever new randomness it draws.  `logout` leaves every per-subject salt
entry unchanged while removing the session entry and clearing the
session-scoped (ephemeral-key) storage and the in-memory state. -/
theorem salt_generated_once_survives_logout
    (store localStore sessionStore : Store) (p : Provider) (sub fresh fresh2 s : String) :
    (getItem store (saltKey p sub) = none →
        getUserSalt store p sub fresh
          = (fresh, setItem store (saltKey p sub) (StoreVal.str fresh)))
      ∧ (getItem store (saltKey p sub) = some (StoreVal.str s) →
        getUserSalt store p sub fresh = (s, store))
      ∧ (getUserSalt (getUserSalt store p sub fresh).2 p sub fresh2).1
          = (getUserSalt store p sub fresh).1
      ∧ getItem (logoutMP localStore sessionStore).2.1 (saltKey p sub)
          = getItem localStore (saltKey p sub)
      ∧ getItem (logoutMP localStore sessionStore).2.1 "zklogin_session" = none
      ∧ (logoutMP localStore sessionStore).2.2 = ([] : Store)
      ∧ (logoutMP localStore sessionStore).1 = emptyZkState := by
  refine ⟨?_, ?_, ?_, ?_, ?_, rfl, rfl⟩
  · intro h
    unfold getUserSalt
    rw [h]
  · intro h
    unfold getUserSalt
    rw [h]
  · cases hg : getItem store (saltKey p sub) with
    | none => simp only [getUserSalt, hg, getItem_setItem_self]
    | some v =>
      cases v with
      | str s0 => simp only [getUserSalt, hg]
      | zk s0 => simp only [getUserSalt, hg, getItem_setItem_self]
      | hybrid s0 => simp only [getUserSalt, hg, getItem_setItem_self]
  · exact getItem_removeItem_ne localStore (saltKey p sub) "zklogin_session"
      (saltKey_ne_sessionKey p sub)
  · exact getItem_removeItem_self localStore "zklogin_session"

/-- Witness for C7: a first login for `(github, "alice")` on an empty store
persists the drawn salt `"7777"`; a second login drawing `"8888"` still
returns `"7777"`; and after `logout` of a store holding a session and that
salt, the salt entry is untouched while the session entry is gone. -/
theorem salt_generated_once_survives_logout_witness :
    getUserSalt ([] : Store) Provider.github "alice" "7777"
        = ("7777", setItem ([] : Store) (saltKey Provider.github "alice") (StoreVal.str "7777"))
      ∧ (getUserSalt (getUserSalt ([] : Store) Provider.github "alice" "7777").2
          Provider.github "alice" "8888").1
        = (getUserSalt ([] : Store) Provider.github "alice" "7777").1
      ∧ getItem (logoutMP demoLocalStore []).2.1 (saltKey Provider.github "alice")
        = getItem demoLocalStore (saltKey Provider.github "alice")
      ∧ getItem (logoutMP demoLocalStore []).2.1 "zklogin_session" = none := by
  have h1 := salt_generated_once_survives_logout ([] : Store) demoLocalStore []
    Provider.github "alice" "7777" "8888" "7777"
  exact ⟨h1.1 rfl, h1.2.2.1, h1.2.2.2.1, h1.2.2.2.2.1⟩

/-! ### C9: restore honours session expiry -/

/-- C9.  For both services: restoring a persisted session whose expiry lies in
the past returns `false` (the session is treated as absent), resets the
in-memory state, and clears the persisted session entry as a side effect;
restoring a session whose expiry has not passed returns `true` and reinstates
the stored fields (the hybrid service additionally rebuilds the keypair from
the first 32 stored key bytes and recomputes the address from it). -/
theorem session_expiry_restore_behavior
    (now : Int) (localStore sessionStore : Store) (st : ZkState) (hst : HybridState)
    (zs : ZkSessionData) (hs : HybridSessionData) (addrOf : List Nat → String) :
    (getItem localStore "zklogin_session" = some (StoreVal.zk zs) →
        (zs.sessionExpiry < now →
            restoreSessionMP now localStore sessionStore st
              = (false, emptyZkState, removeItem localStore "zklogin_session", ([] : Store))
            ∧ getItem (restoreSessionMP now localStore sessionStore st).2.2.1
                "zklogin_session" = none)
        ∧ (¬ zs.sessionExpiry < now →
            restoreSessionMP now localStore sessionStore st
              = (true,
                  { user := zs.user, walletAddress := zs.walletAddress,
                    ephemeralKeyPair := st.ephemeralKeyPair, zkProof := zs.zkProof,
                    userSalt := zs.userSalt, maxEpoch := zs.maxEpoch,
                    sessionExpiry := some zs.sessionExpiry },
                  localStore, sessionStore)))
      ∧ (getItem localStore "hybrid_wallet_session" = some (StoreVal.hybrid hs) →
        (hs.sessionExpiry < now →
            restoreSessionHybrid addrOf now localStore sessionStore hst
              = (false, emptyHybridState, removeItem localStore "hybrid_wallet_session",
                  ([] : Store))
            ∧ getItem (restoreSessionHybrid addrOf now localStore sessionStore hst).2.2.1
                "hybrid_wallet_session" = none)
        ∧ (¬ hs.sessionExpiry < now →
            restoreSessionHybrid addrOf now localStore sessionStore hst
              = (true,
                  { keypair := some (hs.privateKey.take 32), user := hs.user,
                    walletAddress := some (addrOf (hs.privateKey.take 32)),
                    sessionExpiry := some hs.sessionExpiry },
                  localStore, sessionStore))) := by
  constructor
  · intro hget
    constructor
    · intro hexp
      have heq : restoreSessionMP now localStore sessionStore st
          = (false, emptyZkState, removeItem localStore "zklogin_session", ([] : Store)) := by
        simp only [restoreSessionMP, hget, if_pos hexp]
      exact ⟨heq, by rw [heq]; exact getItem_removeItem_self localStore "zklogin_session"⟩
    · intro hexp
      simp only [restoreSessionMP, hget, if_neg hexp]
  · intro hget
    constructor
    · intro hexp
      have heq : restoreSessionHybrid addrOf now localStore sessionStore hst
          = (false, emptyHybridState, removeItem localStore "hybrid_wallet_session",
              ([] : Store)) := by
        simp only [restoreSessionHybrid, hget, if_pos hexp]
      exact ⟨heq, by rw [heq]; exact getItem_removeItem_self localStore "hybrid_wallet_session"⟩
    · intro hexp
      simp only [restoreSessionHybrid, hget, if_neg hexp]

/-- Witness for C9 on concrete stores with sessions expiring at time `10`:
restoring at time `99` fails and clears the persisted entry in both services;
restoring at time `5` succeeds in both. -/
theorem session_expiry_restore_behavior_witness :
    (restoreSessionMP 99 demoLocalStore [] emptyZkState).1 = false
      ∧ getItem (restoreSessionMP 99 demoLocalStore [] emptyZkState).2.2.1
          "zklogin_session" = none
      ∧ (restoreSessionMP 5 demoLocalStore [] emptyZkState).1 = true
      ∧ (restoreSessionHybrid (fun _ => "0xdef") 99 demoHybridStore [] emptyHybridState).1
          = false
      ∧ getItem
          (restoreSessionHybrid (fun _ => "0xdef") 99 demoHybridStore [] emptyHybridState).2.2.1
          "hybrid_wallet_session" = none
      ∧ (restoreSessionHybrid (fun _ => "0xdef") 5 demoHybridStore [] emptyHybridState).1
          = true := by
  have hExp := session_expiry_restore_behavior 99 demoLocalStore [] emptyZkState
    emptyHybridState demoSessionData demoHybridSessionData (fun _ => "0xdef")
  have hFresh := session_expiry_restore_behavior 5 demoLocalStore [] emptyZkState
    emptyHybridState demoSessionData demoHybridSessionData (fun _ => "0xdef")
  have hExpMP := (hExp.1 rfl).1 (by decide)
  have hFreshMP := (hFresh.1 rfl).2 (by decide)
  refine ⟨by rw [hExpMP.1], hExpMP.2, by rw [hFreshMP], ?_, ?_, ?_⟩
  · have hExpH := (session_expiry_restore_behavior 99 demoHybridStore [] emptyZkState
      emptyHybridState demoSessionData demoHybridSessionData (fun _ => "0xdef")).2 rfl
    rw [(hExpH.1 (by decide)).1]
  · have hExpH := (session_expiry_restore_behavior 99 demoHybridStore [] emptyZkState
      emptyHybridState demoSessionData demoHybridSessionData (fun _ => "0xdef")).2 rfl
    exact (hExpH.1 (by decide)).2
  · have hFreshH := (session_expiry_restore_behavior 5 demoHybridStore [] emptyZkState
      emptyHybridState demoSessionData demoHybridSessionData (fun _ => "0xdef")).2 rfl
    rw [hFreshH.2 (by decide)]

/-! ### C10: a restored proof-based session cannot send -/

/-- C10.  A successful `restoreSession` on a fresh proof-based service
instance reinstates the user, wallet address, salt, proof, `maxEpoch` and
expiry, but the ephemeral keypair — which is never part of the persisted
session — stays `null`; consequently every subsequent `sendTransaction`
returns the not-authenticated failure without reaching ledger execution. -/
theorem restored_session_cannot_send
    (now : Int) (localStore sessionStore : Store) (zs : ZkSessionData)
    (hget : getItem localStore "zklogin_session" = some (StoreVal.zk zs))
    (hfresh : ¬ zs.sessionExpiry < now) :
    (restoreSessionMP now localStore sessionStore emptyZkState).1 = true
      ∧ (restoreSessionMP now localStore sessionStore emptyZkState).2.1.user = zs.user
      ∧ (restoreSessionMP now localStore sessionStore emptyZkState).2.1.walletAddress
          = zs.walletAddress
      ∧ (restoreSessionMP now localStore sessionStore emptyZkState).2.1.userSalt = zs.userSalt
      ∧ (restoreSessionMP now localStore sessionStore emptyZkState).2.1.zkProof = zs.zkProof
      ∧ (restoreSessionMP now localStore sessionStore emptyZkState).2.1.maxEpoch = zs.maxEpoch
      ∧ (restoreSessionMP now localStore sessionStore emptyZkState).2.1.sessionExpiry
          = some zs.sessionExpiry
      ∧ (restoreSessionMP now localStore sessionStore emptyZkState).2.1.ephemeralKeyPair = none
      ∧ ∀ (recipient : String) (amountNanos : Nat) (coins : List Coin) (e : Int),
          sendTransaction (restoreSessionMP now localStore sessionStore emptyZkState).2.1
              recipient amountNanos coins e
            = SendResult.failure SendError.notAuthenticated := by
  have heq : restoreSessionMP now localStore sessionStore emptyZkState
      = (true,
          { user := zs.user, walletAddress := zs.walletAddress,
            ephemeralKeyPair := none, zkProof := zs.zkProof,
            userSalt := zs.userSalt, maxEpoch := zs.maxEpoch,
            sessionExpiry := some zs.sessionExpiry },
          localStore, sessionStore) := by
    simp only [restoreSessionMP, hget, if_neg hfresh]
    rfl
  rw [heq]
  refine ⟨rfl, rfl, rfl, rfl, rfl, rfl, rfl, rfl, ?_⟩
  intro recipient amountNanos coins e
  simp [sendTransaction]

/-- Witness for C10: restoring the demo session at time `5` succeeds, yet a
concrete send against a well-funded coin list fails with the
not-authenticated error. -/
theorem restored_session_cannot_send_witness :
    (restoreSessionMP 5 demoLocalStore [] emptyZkState).1 = true
      ∧ sendTransaction (restoreSessionMP 5 demoLocalStore [] emptyZkState).2.1
          "0xrecipient" 7 [⟨"c", 10000000000⟩] 3
        = SendResult.failure SendError.notAuthenticated := by
  have h := restored_session_cannot_send 5 demoLocalStore [] demoSessionData rfl (by decide)
  exact ⟨h.1, h.2.2.2.2.2.2.2.2 "0xrecipient" 7 [⟨"c", 10000000000⟩] 3⟩

/-! ### Transaction history (hybrid service) -/

/-- The `change.object.data` inspected by the hybrid history's
`extractAmount`: whether `data.type` contains `"coin::Coin"` (the
`includes` test, modelled as a Boolean field) and the numeric value of
`fields.balance || fields.value || fields.amount` (`0` is falsy and therefore
behaves like an absent field, handled in `extractAmountScan`). -/
structure HChangeObj where
  isCoinType : Bool
  balanceField : Option Nat
deriving DecidableEq, Repr

/-- An entry of `tx.objectChanges` as the hybrid `extractAmount` sees it:
either a `"TransferObject"` change with an optional well-formed object, or
anything else. -/
inductive HChange where
  | transferObject (obj : Option HChangeObj)
  | other
deriving DecidableEq, Repr

/-- The scanning loop of `extractAmount`: the first `TransferObject` change
holding a coin-typed object with a truthy balance field yields
`(amount / 1e9).toFixed(9)`; otherwise the scan continues, ending in `"0"`. -/
def extractAmountScan : List HChange → String
  | [] => "0"
  | HChange.transferObject (some o) :: rest =>
    if o.isCoinType then
      match o.balanceField with
      | some b => if b = 0 then extractAmountScan rest else fixedString 9 b
      | none => extractAmountScan rest
    else extractAmountScan rest
  | _ :: rest => extractAmountScan rest

/-- `extractAmount` of `HybridWalletService.getTransactionHistory`: `"0"` when
`tx.objectChanges` is not an array, else the scan above. -/
def extractAmountH : Option (List HChange) → String
  | none => "0"
  | some changes => extractAmountScan changes

/-- A transaction block as the hybrid history consumes it: digest,
`transaction?.data?.sender`, timestamp, effects status, and the optional
`objectChanges` array.  (The locale-dependent `toLocaleDateString` rendering
of the timestamp is left out of the record built below.) -/
structure TxH where
  digest : String
  sender : Option String
  timestampMs : Nat
  statusSuccess : Bool
  objectChanges : Option (List HChange)
deriving DecidableEq, Repr

/-- A displayed history record of the hybrid service. -/
structure HRecord where
  id : String
  type : String
  amount : String
  status : String
deriving DecidableEq, Repr

/-- The JavaScript deduplication
`allTxs.filter((tx, index, self) => index === self.findIndex(t => t.digest === tx.digest))`:
an element is kept exactly when its index is the first index carrying its
digest. -/
def jsDedupeByDigest (l : List TxH) : List TxH :=
  (List.filter (fun p => List.findIdx? (fun t => t.digest == p.2.digest) l == some p.1)
    l.enum).map Prod.snd

/-- One output record of the hybrid history: direction is `"Sent"` exactly
when the transaction's sender equals the account address. -/
def mkHRecord (addr : String) (tx : TxH) : HRecord :=
  { id := tx.digest,
    type := if tx.sender = some addr then "Sent" else "Received",
    amount := extractAmountH tx.objectChanges,
    status := if tx.statusSuccess then "Success" else "Failed" }

/-- `HybridWalletService.getTransactionHistory`: empty without an address;
if either ledger query throws, the `catch` returns `[]`; otherwise the sent
and received result lists are concatenated (sent first), deduplicated by
digest keeping the first occurrence, and mapped to display records. -/
def getTransactionHistoryH (walletAddress : Option String)
    (queries : Except Unit (List TxH × List TxH)) : List HRecord :=
  match walletAddress with
  | none => []
  | some addr =>
    match queries with
    | Except.error _ => []
    | Except.ok (sent, received) =>
      (jsDedupeByDigest (sent ++ received)).map (mkHRecord addr)

/-! ### Transaction history (proof-based service) -/

/-- An entry of the object changes inspected by the proof-based history:
its `type` string, whether its `objectType` contains `"Coin"` (modelled as a
Boolean field), and its optional `owner`. -/
structure MPChange where
  ctype : String
  isCoinObjectType : Bool
  owner : Option String
deriving DecidableEq, Repr

/-- A transaction block as the proof-based history consumes it.
`inputAmount` models the `/"amount":(\d+)/` regular-expression probe over the
stringified transaction input: the first embedded mist amount, when one is
present. -/
structure TxMP where
  digest : String
  sender : Option String
  timestampMs : Nat
  statusSuccess : Bool
  changes : List MPChange
  inputAmount : Option Nat
deriving DecidableEq, Repr

/-- A displayed history record of the proof-based service. -/
structure MPRecord where
  id : String
  type : String
  amount : String
  status : String
  recipient : Option String
  sender : Option String
deriving DecidableEq, Repr

/-- The per-transaction processing of
`MultiProviderZkLoginService.getTransactionHistory`: classify by sender,
choose the heuristic placeholder amount (`"1.000"` received / `"0.100"` sent)
from the object changes, then refine it from the transaction input when the
amount probe finds one (`(mist / 1e9).toFixed(6)`). -/
def processTxMP (addr : String) (tx : TxMP) : MPRecord :=
  let isReceived := tx.sender ≠ some addr
  let createdCoins := tx.changes.filter (fun c => c.ctype == "created" && c.isCoinObjectType)
  let transferredObjs := tx.changes.filter (fun c => c.ctype == "transferred")
  let sender := if isReceived then some (tx.sender.getD "Unknown") else none
  let recipient :=
    if isReceived then none
    else
      match transferredObjs with
      | [] => none
      | c :: _ => some (c.owner.getD "Unknown")
  let baseAmount :=
    if isReceived then (if createdCoins.length > 0 then "1.000" else "0")
    else (if transferredObjs.length > 0 then "0.100" else "0")
  let amount :=
    match tx.inputAmount with
    | some m => fixedString 6 (roundDivNat m 1000)
    | none => baseAmount
  { id := tx.digest, type := if isReceived then "Received" else "Sent",
    amount := amount, status := if tx.statusSuccess then "Success" else "Failed",
    recipient := recipient, sender := sender }

/-- The hard-coded record returned by the proof-based history's `catch`
branch ("Return mock data as fallback to show the UI works"). -/
def mpMockFallbackRecord : MPRecord :=
  { id := "mock_faucet_tx", type := "Received", amount := "1.000",
    status := "Success", recipient := none, sender := some "Testnet Faucet" }

/-- `MultiProviderZkLoginService.getTransactionHistory`: empty without an
address; on success each queried transaction is processed; if the query
throws, the `catch` returns the one-element mock fallback list. -/
def getTransactionHistoryMP (walletAddress : Option String)
    (query : Except Unit (List TxMP)) : List MPRecord :=
  match walletAddress with
  | none => []
  | some addr =>
    match query with
    | Except.ok txs => txs.map (processTxMP addr)
    | Except.error _ => [mpMockFallbackRecord]

/-! ### C8: read-path failures degrade to local defaults -/

/-- C8, amended.  Read-path failures never escape the ledger-view boundary:
a failing balance query yields the string `"0"`, a failing hybrid history
query yields the empty list, and a failing proof-based history query yields
the one-element hard-coded mock record — a placeholder, not the empty list
the claim states (see the counterexample). -/
theorem read_paths_degrade_on_failure (w : Option String) (addr : String) :
    getBalanceMP w (Except.error ()) = "0"
      ∧ getTransactionHistoryMP (some addr) (Except.error ()) = [mpMockFallbackRecord]
      ∧ getTransactionHistoryH (some addr) (Except.error ()) = [] := by
  refine ⟨?_, rfl, rfl⟩
  cases w <;> rfl

/-- Counterexample to C8 as stated: a failing proof-based history query
returns the one-element mock record list, not the empty list. -/
theorem history_failure_not_empty_counterexample :
    getTransactionHistoryMP (some "0xabc") (Except.error ()) = [mpMockFallbackRecord]
      ∧ getTransactionHistoryMP (some "0xabc") (Except.error ()) ≠ ([] : List MPRecord) := by
  exact ⟨rfl, by decide⟩

/-! ### C6 helper lemmas -/

/-- `List.findIdx?` on a list decomposed around the first satisfying element,
for an arbitrary starting index. -/
theorem findIdx?_first_of_decomp {α : Type} (p : α → Bool) (pre post : List α) (x : α)
    (start : Nat) (hpre : ∀ y ∈ pre, p y = false) (hx : p x = true) :
    List.findIdx? p (pre ++ x :: post) start = some (start + pre.length) := by
  induction pre generalizing start with
  | nil => simp [List.findIdx?_cons, hx]
  | cons a as ih =>
    have ha : p a = false := hpre a (by simp)
    rw [List.cons_append, List.findIdx?_cons, if_neg (by simp [ha]),
      ih (start + 1) (fun y hy => hpre y (by simp [hy]))]
    congr 1
    simp only [List.length_cons]
    omega


/-- Filtering an `enumFrom` segment by a fixed index (plus any extra test)
retains at most the unique entry carrying that index. -/
theorem filter_enumFrom_fst_eq {α : Type} (l : List α) (n i : Nat) (R : α → Bool) :
    List.filter (fun p => p.1 == i && R p.2) (List.enumFrom n l)
      = if n ≤ i then
          (match l.get? (i - n) with
            | some a => if R a then [(i, a)] else []
            | none => ([] : List (Nat × α)))
        else [] := by
  induction l generalizing n with
  | nil =>
    simp only [List.enumFrom, List.filter_nil, List.get?_eq_getElem?, List.getElem?_nil]
    rw [ite_self]
  | cons a as ih =>
    rw [List.enumFrom_cons, List.filter_cons]
    by_cases hni : n = i
    · subst hni
      rw [ih (n + 1)]
      have h1 : ¬ (n + 1 ≤ n) := by omega
      rw [if_neg h1, if_pos (Nat.le_refl n)]
      simp only [Nat.sub_self, List.get?_eq_getElem?, List.getElem?_cons_zero, beq_self_eq_true,
        Bool.true_and]
    · have hbeq : (n == i) = false := beq_eq_false_iff_ne.mpr hni
      rw [if_neg (by simp [hbeq]), ih (n + 1)]
      by_cases hle : n + 1 ≤ i
      · rw [if_pos hle, if_pos (by omega)]
        have : i - n = (i - (n + 1)) + 1 := by omega
        rw [this]
        simp only [List.get?_eq_getElem?, List.getElem?_cons_succ]
      · rw [if_neg hle, if_neg (by omega)]

/-- The identifier of a history record is the digest of its transaction. -/
theorem mkHRecord_id (addr : String) (t : TxH) : (mkHRecord addr t).id = t.digest := rfl

/-! ### C6: merge, dedupe by id keeping the first occurrence, classify -/

/-- C6.  The history reconciler concatenates the sent-query and
received-query result lists (sent first) and deduplicates by transaction id
keeping the first occurrence: whenever the merged list decomposes around the
first transaction carrying a given digest, the output contains exactly one
record with that id, built from that first occurrence.  Moreover every output
record comes from a merged transaction and is classified `"Sent"` exactly when
that transaction's sender equals the account address, `"Received"` otherwise. -/
theorem history_merge_dedupe_classify
    (addr : String) (sent received pre post : List TxH) (tx : TxH) :
    ((sent ++ received = pre ++ tx :: post) →
        (∀ x ∈ pre, x.digest ≠ tx.digest) →
        List.filter (fun r => r.id == tx.digest)
            (getTransactionHistoryH (some addr) (Except.ok (sent, received)))
          = [mkHRecord addr tx])
      ∧ (∀ r ∈ getTransactionHistoryH (some addr) (Except.ok (sent, received)),
          ∃ t ∈ sent ++ received, r = mkHRecord addr t ∧ r.id = t.digest
            ∧ (t.sender = some addr → r.type = "Sent")
            ∧ (t.sender ≠ some addr → r.type = "Received")) := by
  constructor
  · intro hdecomp hpre
    simp only [getTransactionHistoryH, jsDedupeByDigest]
    rw [List.filter_map, List.filter_map, List.filter_filter]
    have hfind : List.findIdx? (fun s => s.digest == tx.digest) (sent ++ received)
        = some pre.length := by
      rw [hdecomp]
      have h := findIdx?_first_of_decomp (fun s => s.digest == tx.digest) pre post tx 0
        (fun y hy => beq_eq_false_iff_ne.mpr (hpre y hy)) (beq_self_eq_true tx.digest)
      rw [h]
      simp
    have hpred : ∀ p ∈ (sent ++ received).enum,
        ((((fun r => r.id == tx.digest) ∘ mkHRecord addr) ∘ Prod.snd) p
            && (List.findIdx? (fun t => t.digest == p.2.digest) (sent ++ received)
              == some p.1))
          = (p.1 == pre.length && (fun t => t.digest == tx.digest) p.2) := by
      intro p hp
      show ((p.2.digest == tx.digest)
          && (List.findIdx? (fun t => t.digest == p.2.digest) (sent ++ received) == some p.1))
        = (p.1 == pre.length && (p.2.digest == tx.digest))
      cases htd : (p.2.digest == tx.digest) with
      | false => simp [htd]
      | true =>
        have htd' : p.2.digest = tx.digest := beq_iff_eq.mp htd
        rw [htd', hfind]
        show (some pre.length == some p.1) = (p.1 == pre.length && true)
        rw [Bool.and_true]
        by_cases hj : p.1 = pre.length
        · rw [hj]
          simp
        · have h1 : (p.1 == pre.length) = false := beq_eq_false_iff_ne.mpr hj
          have h2 : (pre.length == p.1) = false := beq_eq_false_iff_ne.mpr (Ne.symm hj)
          show (pre.length == p.1) = (p.1 == pre.length)
          rw [h1, h2]
    rw [List.filter_congr hpred]
    show List.map (mkHRecord addr) (List.map Prod.snd
        (List.filter (fun p => p.1 == pre.length && (fun t => t.digest == tx.digest) p.2)
          (List.enumFrom 0 (sent ++ received)))) = [mkHRecord addr tx]
    rw [filter_enumFrom_fst_eq (sent ++ received) 0 pre.length
      (fun t => t.digest == tx.digest), if_pos (Nat.zero_le pre.length)]
    have hget : (sent ++ received).get? (pre.length - 0) = some tx := by
      rw [Nat.sub_zero, hdecomp, List.get?_eq_getElem?,
        List.getElem?_append_right (Nat.le_refl pre.length), Nat.sub_self]
      simp
    rw [hget]
    simp
  · intro r hr
    simp only [getTransactionHistoryH] at hr
    obtain ⟨t, ht, hrt⟩ := List.mem_map.mp hr
    simp only [jsDedupeByDigest] at ht
    obtain ⟨p, hpfilter, hpt⟩ := List.mem_map.mp ht
    have hpenum := List.mem_of_mem_filter hpfilter
    have hget : (sent ++ received).get? p.1 = some p.2 := List.mem_enum_iff_get?.mp hpenum
    have htl : p.2 ∈ sent ++ received := List.get?_mem hget
    subst hpt
    subst hrt
    refine ⟨p.2, htl, rfl, rfl, ?_, ?_⟩
    · intro hs
      show (if p.2.sender = some addr then "Sent" else "Received") = "Sent"
      rw [if_pos hs]
    · intro hs
      show (if p.2.sender = some addr then "Sent" else "Received") = "Received"
      rw [if_neg hs]

/-- Witness for C6: sent list `[abc, def]` and received list `[abc]` share
transaction id `"abc"`; merging yields exactly one record with id `"abc"`,
built from the first occurrence. -/
theorem history_merge_dedupe_classify_witness :
    List.filter (fun r => r.id == "abc")
        (getTransactionHistoryH (some "0xme")
          (Except.ok ([⟨"abc", some "0xme", 5, true, none⟩, ⟨"def", some "0xother", 6, true, none⟩],
            [⟨"abc", some "0xme", 5, true, none⟩])))
      = [mkHRecord "0xme" ⟨"abc", some "0xme", 5, true, none⟩] := by
  have h := (history_merge_dedupe_classify "0xme"
    [⟨"abc", some "0xme", 5, true, none⟩, ⟨"def", some "0xother", 6, true, none⟩]
    [⟨"abc", some "0xme", 5, true, none⟩]
    [] [⟨"def", some "0xother", 6, true, none⟩, ⟨"abc", some "0xme", 5, true, none⟩]
    ⟨"abc", some "0xme", 5, true, none⟩).1 rfl (by intro x hx; exact absurd hx (List.not_mem_nil x))
  exact h

end ZkLoginWallet
